import Mathlib

/-!
Shallow embedding of the StructureAnnotator core (`src/main.py`).

Naming: the Python classes `PointAnnotation`, `BoxAnnotation`, `PlantAnnotation`
and `ImageAnnotation` are embedded as `PointAnn`, `BoxAnn`, `PlantAnn` and
`ImageAnn`; every method keeps its Python name.  Python `int` is `Int`,
Python `None` for optional values is `Option.none`, Python lists are `List`.
A Python runtime error (TypeError on `None`, IndexError, AttributeError) is
modelled as `Option.none` / an explicit error value of the operation that
raises it.
-/

/-- Embeds `PointAnnotation` (src/main.py): a keypoint with a kind tag
("stem" or "leaf") and integer pixel coordinates. -/
structure PointAnn where
  kind : String
  x : Int
  y : Int
deriving DecidableEq, Repr

/-- Embeds `BoxAnnotation` (src/main.py): a box stored as the two drag
corners `(x, y)` and `(x2, y2)`, in drag order. -/
structure BoxAnn where
  x : Int
  y : Int
  x2 : Int
  y2 : Int
deriving DecidableEq, Repr

/-- `BoxAnnotation.update_tail`: move the second drag corner. -/
def BoxAnn.update_tail (b : BoxAnn) (x y : Int) : BoxAnn :=
  { b with x2 := x, y2 := y }

/-- `BoxAnnotation.x_min` derived property. -/
def BoxAnn.x_min (b : BoxAnn) : Int := min b.x b.x2

/-- `BoxAnnotation.y_min` derived property. -/
def BoxAnn.y_min (b : BoxAnn) : Int := min b.y b.y2

/-- `BoxAnnotation.x_max` derived property. -/
def BoxAnn.x_max (b : BoxAnn) : Int := max b.x b.x2

/-- `BoxAnnotation.y_max` derived property. -/
def BoxAnn.y_max (b : BoxAnn) : Int := max b.y b.y2

/-- `BoxAnnotation.width` derived property. -/
def BoxAnn.width (b : BoxAnn) : Int := b.x_max - b.x_min

/-- `BoxAnnotation.height` derived property. -/
def BoxAnn.height (b : BoxAnn) : Int := b.y_max - b.y_min

/-- Embeds `PlantAnnotation` (src/main.py): one labeled plant, consisting of
an optional box and an ordered point sequence. -/
structure PlantAnn where
  label : String
  box : Option BoxAnn
  points : List PointAnn
deriving DecidableEq, Repr

/-- `PlantAnnotation.append_point`: the kind is "stem" when the point list is
still empty, "leaf" otherwise; the new point goes at the end of the list. -/
def PlantAnn.append_point (a : PlantAnn) (x y : Int) : PlantAnn :=
  let kind := if a.points.isEmpty then "stem" else "leaf"
  { a with points := a.points ++ [PointAnn.mk kind x y] }

/-- `PlantAnnotation.is_empty`: `not self.points and not self.box`. -/
def PlantAnn.is_empty (a : PlantAnn) : Bool :=
  a.points.isEmpty && a.box.isNone

/-- The JSON shape produced by `PointAnnotation.json_repr`
(a dict with `kind` and `location.x`, `location.y`). -/
structure PointJson where
  kind : String
  x : Int
  y : Int
deriving DecidableEq, Repr

/-- The JSON shape produced by `BoxAnnotation.json_repr`. -/
structure BoxJson where
  x_min : Int
  y_min : Int
  x_max : Int
  y_max : Int
deriving DecidableEq, Repr

/-- The JSON shape of one crop record (`PlantAnnotation.json_repr`):
`box` is `null`-able and the points are serialised under `parts`. -/
structure CropJson where
  label : String
  box : Option BoxJson
  parts : List PointJson
deriving DecidableEq, Repr

/-- The JSON shape of a whole annotation file (`ImageAnnotation.save_json`). -/
structure RecordJson where
  image_name : String
  image_path : String
  crops : List CropJson
deriving DecidableEq, Repr

/-- `PointAnnotation.json_repr`. -/
def PointAnn.json_repr (p : PointAnn) : PointJson :=
  PointJson.mk p.kind p.x p.y

/-- `PointAnnotation.from_json`: rebuilds the point, taking `kind` from the
file (never re-derived). -/
def PointAnn.from_json (pj : PointJson) : PointAnn :=
  PointAnn.mk pj.kind pj.x pj.y

/-- `BoxAnnotation.json_repr`: serialises the normalized corners. -/
def BoxAnn.json_repr (b : BoxAnn) : BoxJson :=
  BoxJson.mk b.x_min b.y_min b.x_max b.y_max

/-- `BoxAnnotation.from_json`: a falsy dict (absent / null box) gives `None`;
otherwise the stored corner fields become `(x, y)` and `(x2, y2)`. -/
def BoxAnn.from_json (bj : Option BoxJson) : Option BoxAnn :=
  match bj with
  | none => none
  | some b => some (BoxAnn.mk b.x_min b.y_min b.x_max b.y_max)

/-- `PlantAnnotation.json_repr`. -/
def PlantAnn.json_repr (a : PlantAnn) : CropJson :=
  CropJson.mk a.label (a.box.map BoxAnn.json_repr) (a.points.map PointAnn.json_repr)

/-- `PlantAnnotation.from_json`. -/
def PlantAnn.from_json (cj : CropJson) : PlantAnn :=
  PlantAnn.mk cj.label (BoxAnn.from_json cj.box) (cj.parts.map PointAnn.from_json)

/-- Embeds `ImageAnnotation` (src/main.py): the per-image store: the ordered
crop list and the private `_target_index` field (`Option Nat`: every value
the Python code ever stores in `_target_index` is `None` or a reduced index). -/
structure ImageAnn where
  annotations : List PlantAnn
  target_index : Option Nat
deriving DecidableEq, Repr

/-- `ImageAnnotation.__init__`: `_target_index = len(annotations) - 1 if
annotations else None`. -/
def ImageAnn.mk_init (l : List PlantAnn) : ImageAnn :=
  if l.isEmpty then ImageAnn.mk [] none
  else ImageAnn.mk l (some (l.length - 1))

/-- The `target_index` property setter: the assigned integer is reduced
modulo the sequence length when the store is non-empty (Python `%` on a
positive modulus agrees with `Int.emod`); on an empty store it stores `None`. -/
def ImageAnn.set_target_index (s : ImageAnn) (v : Int) : ImageAnn :=
  if s.annotations.length ≠ 0 then
    { s with target_index := some ((v % (s.annotations.length : Int)).toNat) }
  else
    { s with target_index := none }

/-- `ImageAnnotation.is_empty`. -/
def ImageAnn.is_empty (s : ImageAnn) : Bool :=
  s.annotations.isEmpty

/-- The `target` property, `self.annotations[self.target_index]`: reading it
with `_target_index = None` or out of range raises in Python, modelled by
`none`. -/
def ImageAnn.target (s : ImageAnn) : Option PlantAnn :=
  match s.target_index with
  | none => none
  | some i => s.annotations.get? i

/-- In-place mutation of the target object (`store.target.<field> = ...` in
Python): read the target, transform it, write it back at the same index;
`none` models the raised TypeError / IndexError when there is no target. -/
def ImageAnn.modify_target (s : ImageAnn) (f : PlantAnn → PlantAnn) : Option ImageAnn :=
  match s.target_index with
  | none => none
  | some i =>
    match s.annotations.get? i with
    | none => none
    | some t => some { s with annotations := s.annotations.set i (f t) }

/-- `ImageAnnotation.append`: append then assign `target_index = len - 1`
through the setter. -/
def ImageAnn.append (s : ImageAnn) (a : PlantAnn) : ImageAnn :=
  ImageAnn.set_target_index
    { s with annotations := s.annotations ++ [a] }
    ((s.annotations.length : Int) + 1 - 1)

/-- `ImageAnnotation.pop_target`: on an empty store, store `None` (setter on
length 0); otherwise `del annotations[target_index]` (raises when
`target_index` is `None` or out of range, modelled by `none`) then
`target_index -= 1` through the setter against the new length. -/
def ImageAnn.pop_target (s : ImageAnn) : Option ImageAnn :=
  if s.annotations.isEmpty then some { s with target_index := none }
  else
    match s.target_index with
    | none => none
    | some i =>
      if i < s.annotations.length then
        some (ImageAnn.set_target_index
          { s with annotations := s.annotations.eraseIdx i } ((i : Int) - 1))
      else none

/-- `ImageAnnotation.create_annotation_if_needed`: when the store is empty,
append a fresh `PlantAnnotation(label)` and assign `target_index = 0`. -/
def ImageAnn.create_annotation_if_needed (s : ImageAnn) (lab : String) : ImageAnn :=
  if s.is_empty then
    ImageAnn.set_target_index
      { s with annotations := s.annotations ++ [PlantAnn.mk lab none []] } 0
  else s

/-- `ImageAnnotation.reset`: `annotations = []` then `target_index = None`
(the setter stores `None` since the length is 0). -/
def ImageAnn.reset (_s : ImageAnn) : ImageAnn :=
  ImageAnn.mk [] none

/-- `ImageAnnotation.load_from_json`: `none` stands for an absent file, which
resets the store; `some r` stands for the parsed file contents, which replace
the crop list and assign `target_index = len - 1` through the setter. -/
def ImageAnn.load_from_json (s : ImageAnn) (file : Option RecordJson) : ImageAnn :=
  match file with
  | none => s.reset
  | some r =>
    ImageAnn.set_target_index
      { s with annotations := r.crops.map PlantAnn.from_json }
      ((r.crops.length : Int) - 1)

/-- `ImageAnnotation.save_json`: the result record, or `none` for the
"delete the file, write nothing" signal taken when the store is empty or its
first crop is empty.  `image_name` (the basename computed by the I/O layer)
and `image_path` are parameters. -/
def ImageAnn.save_json (s : ImageAnn) (image_name image_path : String) :
    Option RecordJson :=
  match s.annotations with
  | [] => none
  | a :: _ =>
    if a.is_empty then none
    else some (RecordJson.mk image_name image_path
      ((s.annotations.filter (fun c => !c.is_empty)).map PlantAnn.json_repr))

/-- `ImageAnnotation.from_json` classmethod: decode a whole record through
`__init__`. -/
def ImageAnn.from_json (r : RecordJson) : ImageAnn :=
  ImageAnn.mk_init (r.crops.map PlantAnn.from_json)

/-- The store invariant: `_target_index` is `None` exactly on the empty
store, and otherwise a valid index. -/
def storeInv (s : ImageAnn) : Prop :=
  match s.target_index with
  | none => s.annotations = []
  | some i => i < s.annotations.length

/-- The gesture events the main loop and the mouse callback dispatch to the
store.  `dblClick` is `EVENT_LBUTTONDBLCLK`; `dragBegin`, `dragMove` and
`dragEnd` are the three shift+left-button branches of `on_mouse_event`;
`keyZ`, `keyA`, `keyW`, `keyX` are the corresponding key branches of the main
loop, and `keyDigit n` is the digit key `n + 1` (keys '1'..'9').  Cursor-only
mouse moves and the save / navigation keys do not mutate the resident store
and are not part of the alphabet. -/
inductive GEvent where
  | dblClick (x y : Int)
  | dragBegin (x y : Int)
  | dragMove (x y : Int)
  | dragEnd (x y : Int)
  | keyZ
  | keyA
  | keyW
  | keyX
  | keyDigit (n : Fin 9)
deriving DecidableEq, Repr

/-- The two kinds of Python runtime failure the dispatch code can hit:
`targetAccess` is an access through a missing target or a `None` box
(TypeError / AttributeError / IndexError on the annotations); `noneArith` is
the `None - 1` / `None + 1` TypeError of `store.target_index -= 1` on an
empty store. -/
inductive StepErr where
  | targetAccess
  | noneArith
deriving DecidableEq, Repr

/-- The loop state the gestures act on: the resident store and the active
label. -/
structure AppState where
  store : ImageAnn
  label : String
deriving DecidableEq, Repr

/-- One gesture dispatched against the loop state, as the code executes it
(`on_mouse_event` and the key branches of `main`). -/
def step (labels : List String) (st : AppState) : GEvent → Except StepErr AppState
  | GEvent.dblClick x y =>
    match (st.store.create_annotation_if_needed st.label).modify_target
        (fun t => t.append_point x y) with
    | none => Except.error StepErr.targetAccess
    | some s1 => Except.ok { st with store := s1 }
  | GEvent.dragBegin x y =>
    match (st.store.create_annotation_if_needed st.label).modify_target
        (fun t => { t with box := some (BoxAnn.mk x y x y) }) with
    | none => Except.error StepErr.targetAccess
    | some s1 => Except.ok { st with store := s1 }
  | GEvent.dragMove x y =>
    match st.store.target with
    | none => Except.error StepErr.targetAccess
    | some t =>
      match t.box with
      | none => Except.error StepErr.targetAccess
      | some b =>
        match st.store.modify_target (fun u => { u with box := some (b.update_tail x y) }) with
        | none => Except.error StepErr.targetAccess
        | some s1 => Except.ok { st with store := s1 }
  | GEvent.dragEnd x y =>
    match st.store.target with
    | none => Except.error StepErr.targetAccess
    | some t =>
      match t.box with
      | none => Except.error StepErr.targetAccess
      | some b =>
        match st.store.modify_target (fun u => { u with box := some (b.update_tail x y) }) with
        | none => Except.error StepErr.targetAccess
        | some s1 => Except.ok { st with store := s1 }
  | GEvent.keyZ =>
    if st.store.is_empty then Except.ok st
    else
      match st.store.target with
      | none => Except.error StepErr.targetAccess
      | some t =>
        if !t.is_empty then
          if t.box.isSome then
            match st.store.modify_target (fun u => { u with box := none }) with
            | none => Except.error StepErr.targetAccess
            | some s1 => Except.ok { st with store := s1 }
          else
            match st.store.modify_target
                (fun u => { u with points := u.points.dropLast }) with
            | none => Except.error StepErr.targetAccess
            | some s1 => Except.ok { st with store := s1 }
        else
          match st.store.pop_target with
          | none => Except.error StepErr.targetAccess
          | some s1 => Except.ok { st with store := s1 }
  | GEvent.keyA =>
    match st.store.annotations.getLast? with
    | some lastA =>
      if !lastA.is_empty then
        Except.ok { st with store := st.store.append (PlantAnn.mk st.label none []) }
      else
        Except.ok { st with store :=
          st.store.set_target_index ((st.store.annotations.length : Int) - 1) }
    | none =>
      Except.ok { st with store :=
        st.store.set_target_index ((st.store.annotations.length : Int) - 1) }
  | GEvent.keyW =>
    match st.store.target_index with
    | none => Except.error StepErr.noneArith
    | some i => Except.ok { st with store := st.store.set_target_index ((i : Int) - 1) }
  | GEvent.keyX =>
    match st.store.target_index with
    | none => Except.error StepErr.noneArith
    | some i => Except.ok { st with store := st.store.set_target_index ((i : Int) + 1) }
  | GEvent.keyDigit n =>
    -- the pressed digit is `index = n + 1`; the code reads `labels[index - 1]`
    if n.val + 1 ≤ labels.length then
      match labels.get? n.val with
      | none => Except.error StepErr.targetAccess
      | some lab =>
        if st.store.is_empty then Except.ok (AppState.mk st.store lab)
        else
          match st.store.modify_target (fun t => { t with label := lab }) with
          | none => Except.error StepErr.targetAccess
          | some s1 => Except.ok (AppState.mk s1 lab)
    else Except.ok st

/-- Replaying a gesture sequence, stopping at the first raised error (an
uncaught Python exception ends the application). -/
def replay (labels : List String) (st : AppState) : List GEvent → Except StepErr AppState
  | [] => Except.ok st
  | e :: es =>
    match step labels st e with
    | Except.ok st1 => replay labels st1 es
    | Except.error err => Except.error err

/-- A drag is live on the store: the target exists and carries a box. -/
def dragOk (s : ImageAnn) : Bool :=
  match s.target with
  | none => false
  | some t => t.box.isSome

/-- Well-formed gesture sequences relative to a drag-in-progress flag:
`dragMove` and `dragEnd` only occur during a drag, and no undo, commit or
retarget key is pressed between the `dragBegin` and the moves of one drag
(double clicks and digit keys are harmless mid-drag and stay allowed). -/
def wfEvents : Bool → List GEvent → Bool
  | _, [] => true
  | d, GEvent.dblClick _ _ :: es => wfEvents d es
  | _, GEvent.dragBegin _ _ :: es => wfEvents true es
  | d, GEvent.dragMove _ _ :: es => d && wfEvents true es
  | d, GEvent.dragEnd _ _ :: es => d && wfEvents false es
  | _, GEvent.keyZ :: es => wfEvents false es
  | _, GEvent.keyA :: es => wfEvents false es
  | _, GEvent.keyW :: es => wfEvents false es
  | _, GEvent.keyX :: es => wfEvents false es
  | d, GEvent.keyDigit _ :: es => wfEvents d es

/-- Iterated `append_point`: the effect of a sequence of point-commit
gestures on one annotation. -/
def appendAll (a : PlantAnn) (coords : List (Int × Int)) : PlantAnn :=
  coords.foldl (fun acc c => acc.append_point c.1 c.2) a

/-- The normalized corner view of an optional box: what the box means
geometrically, independent of drag direction. -/
def boxCorners : Option BoxAnn → Option (Int × Int × Int × Int)
  | none => none
  | some b => some (b.x_min, b.y_min, b.x_max, b.y_max)

/-- Equivalence of plants up to box drag direction: same label, same
normalized box (or both absent), identical point sequence. -/
def plantEquiv (a b : PlantAnn) : Prop :=
  a.label = b.label ∧ boxCorners a.box = boxCorners b.box ∧ a.points = b.points

/-- A concrete non-empty plant used by witnesses and counterexamples. -/
def plantStem11 : PlantAnn :=
  PlantAnn.mk "bean" none [PointAnn.mk "stem" 1 1]

/-- A concrete empty plant. -/
def plantEmptyBean : PlantAnn :=
  PlantAnn.mk "bean" none []

/-- A concrete store whose target (index 0) is non-empty while its last
entry is empty. -/
def storeTargetFirst : ImageAnn :=
  ImageAnn.mk [plantStem11, plantEmptyBean] (some 0)

theorem emod_toNat_lt (v : Int) (n : Nat) (hn : n ≠ 0) : (v % (n : Int)).toNat < n := by
  have hpos : (0 : Int) < (n : Int) := by
    exact_mod_cast Nat.pos_of_ne_zero hn
  have h1 := Int.emod_nonneg v (ne_of_gt hpos)
  have h2 := Int.emod_lt_of_pos v hpos
  omega

theorem set_target_index_annotations (s : ImageAnn) (v : Int) :
    (s.set_target_index v).annotations = s.annotations := by
  unfold ImageAnn.set_target_index
  split <;> rfl

theorem set_target_index_inv (s : ImageAnn) (v : Int) :
    storeInv (s.set_target_index v) := by
  by_cases h : s.annotations.length = 0
  · simp [ImageAnn.set_target_index, h, storeInv, List.length_eq_zero.mp h]
  · simp [ImageAnn.set_target_index, h, storeInv]
    exact emod_toNat_lt v _ h

theorem set_target_index_val (s : ImageAnn) (v : Int) (h : s.annotations.length ≠ 0) :
    (s.set_target_index v).target_index =
      some ((v % (s.annotations.length : Int)).toNat) := by
  simp [ImageAnn.set_target_index, h]

theorem set_target_index_zero (s : ImageAnn) (v : Int) (h : s.annotations.length = 0) :
    (s.set_target_index v).target_index = none := by
  simp [ImageAnn.set_target_index, h]

theorem set_target_index_last (s : ImageAnn) (h : s.annotations.length ≠ 0) :
    (s.set_target_index ((s.annotations.length : Int) - 1)).target_index
      = some (s.annotations.length - 1) := by
  rw [set_target_index_val _ _ h]
  have h1 : (0 : Int) ≤ (s.annotations.length : Int) - 1 := by omega
  have h2 : (s.annotations.length : Int) - 1 < (s.annotations.length : Int) := by omega
  rw [Int.emod_eq_of_lt h1 h2]
  congr 1
  omega

theorem target_of_inv (s : ImageAnn) (hinv : storeInv s) (hne : s.annotations ≠ []) :
    ∃ i t, s.target_index = some i ∧ i < s.annotations.length ∧
      s.annotations.get? i = some t ∧ s.target = some t := by
  rcases hI : s.target_index with _ | i
  · exfalso
    simp only [storeInv, hI] at hinv
    exact hne hinv
  · simp only [storeInv, hI] at hinv
    refine ⟨i, s.annotations.get ⟨i, hinv⟩, rfl, hinv, List.get?_eq_get hinv, ?_⟩
    simp [ImageAnn.target, hI, List.get?_eq_get hinv]

theorem dragOk_nonempty (s : ImageAnn) (h : dragOk s = true) : s.annotations ≠ [] := by
  intro hnil
  rcases hI : s.target_index with _ | i
  · simp [dragOk, ImageAnn.target, hI] at h
  · simp [dragOk, ImageAnn.target, hI, hnil] at h

theorem modify_target_eq (s : ImageAnn) (f : PlantAnn → PlantAnn) (i : Nat)
    (t : PlantAnn) (hI : s.target_index = some i)
    (hget : s.annotations.get? i = some t) (hlt : i < s.annotations.length) :
    s.modify_target f = some (ImageAnn.mk (s.annotations.set i (f t)) (some i)) ∧
    storeInv (ImageAnn.mk (s.annotations.set i (f t)) (some i)) ∧
    (ImageAnn.mk (s.annotations.set i (f t)) (some i)).target = some (f t) := by
  have hget2 : s.annotations[i]? = some t := by
    rw [← List.get?_eq_getElem?]
    exact hget
  refine ⟨?_, ?_, ?_⟩
  · have : { s with annotations := s.annotations.set i (f t) } =
        ImageAnn.mk (s.annotations.set i (f t)) (some i) := by
      cases s
      simp_all
    simp [ImageAnn.modify_target, hI, hget2, this]
  · simp only [storeInv]
    simpa using hlt
  · simp [ImageAnn.target, List.get?_eq_getElem?, List.getElem?_set, hlt]

theorem modify_target_spec (s : ImageAnn) (f : PlantAnn → PlantAnn)
    (hinv : storeInv s) (hne : s.annotations ≠ []) :
    ∃ i t, s.target_index = some i ∧ s.annotations.get? i = some t ∧
      s.target = some t ∧
      s.modify_target f = some (ImageAnn.mk (s.annotations.set i (f t)) (some i)) ∧
      storeInv (ImageAnn.mk (s.annotations.set i (f t)) (some i)) ∧
      (ImageAnn.mk (s.annotations.set i (f t)) (some i)).target = some (f t) := by
  obtain ⟨i, t, hI, hlt, hget, htgt⟩ := target_of_inv s hinv hne
  obtain ⟨h1, h2, h3⟩ := modify_target_eq s f i t hI hget hlt
  exact ⟨i, t, hI, hget, htgt, h1, h2, h3⟩

theorem append_spec (s : ImageAnn) (a : PlantAnn) :
    (s.append a).annotations = s.annotations ++ [a] ∧
    (s.append a).target_index = some s.annotations.length ∧
    storeInv (s.append a) := by
  unfold ImageAnn.append
  refine ⟨set_target_index_annotations _ _, ?_, set_target_index_inv _ _⟩
  have hlen : (s.annotations ++ [a]).length ≠ 0 := by simp
  rw [show ((s.annotations.length : Int) + 1 - 1)
        = ((s.annotations ++ [a]).length : Int) - 1 by simp]
  rw [set_target_index_last _ hlen]
  simp

theorem create_spec (s : ImageAnn) (lab : String) (hinv : storeInv s) :
    storeInv (s.create_annotation_if_needed lab) ∧
    (s.create_annotation_if_needed lab).annotations ≠ [] ∧
    (s.annotations ≠ [] → s.create_annotation_if_needed lab = s) := by
  by_cases h : s.annotations = []
  · have he : s.is_empty = true := by simp [ImageAnn.is_empty, h]
    unfold ImageAnn.create_annotation_if_needed
    rw [if_pos he]
    refine ⟨set_target_index_inv _ _, ?_, fun hc => absurd h hc⟩
    rw [set_target_index_annotations]
    simp
  · have he : s.is_empty = false := by simp [ImageAnn.is_empty, h]
    unfold ImageAnn.create_annotation_if_needed
    rw [if_neg (by simp [he])]
    exact ⟨hinv, h, fun _ => rfl⟩

theorem pop_target_spec (s : ImageAnn) (i : Nat) (hI : s.target_index = some i)
    (hlt : i < s.annotations.length) :
    s.pop_target = some (ImageAnn.set_target_index
      (ImageAnn.mk (s.annotations.eraseIdx i) (some i)) ((i : Int) - 1)) ∧
    storeInv (ImageAnn.set_target_index
      (ImageAnn.mk (s.annotations.eraseIdx i) (some i)) ((i : Int) - 1)) := by
  have hne : s.annotations.isEmpty = false := by
    cases hl : s.annotations with
    | nil => rw [hl] at hlt; simp at hlt
    | cons a l => simp
  constructor
  · simp only [ImageAnn.pop_target, hne, Bool.false_eq_true, if_false, hI, hlt, if_pos]
  · exact set_target_index_inv _ _

theorem pop_target_of_inv (s : ImageAnn) (hinv : storeInv s) :
    ∃ s1, s.pop_target = some s1 ∧ storeInv s1 := by
  by_cases h : s.annotations = []
  · refine ⟨{ s with target_index := none }, ?_, ?_⟩
    · simp [ImageAnn.pop_target, h]
    · simp [storeInv, h]
  · obtain ⟨i, t, hI, hlt, _, _⟩ := target_of_inv s hinv h
    obtain ⟨hpop, hinv1⟩ := pop_target_spec s i hI hlt
    exact ⟨_, hpop, hinv1⟩

theorem append_point_box (a : PlantAnn) (x y : Int) :
    (a.append_point x y).box = a.box := rfl

theorem step_dblClick_spec (labels : List String) (st : AppState) (x y : Int)
    (hinv : storeInv st.store) :
    ∃ st1, step labels st (GEvent.dblClick x y) = Except.ok st1 ∧
      storeInv st1.store ∧
      (dragOk st.store = true → dragOk st1.store = true) := by
  obtain ⟨hinv1, hne1, hid⟩ := create_spec st.store st.label hinv
  obtain ⟨i, t, hI, hget, htgt, hmod, hinv2, htgt2⟩ :=
    modify_target_spec (st.store.create_annotation_if_needed st.label)
      (fun u => u.append_point x y) hinv1 hne1
  refine ⟨AppState.mk (ImageAnn.mk
      ((st.store.create_annotation_if_needed st.label).annotations.set i
        (t.append_point x y)) (some i)) st.label, ?_, hinv2, ?_⟩
  · simp only [step, hmod]
  · intro hd
    have hs : st.store.create_annotation_if_needed st.label = st.store :=
      hid (dragOk_nonempty _ hd)
    have htgt0 : st.store.target = some t := by rw [← hs]; exact htgt
    have hbox : t.box.isSome = true := by simpa [dragOk, htgt0] using hd
    simp only [dragOk, htgt2]
    simp [append_point_box, hbox]

theorem step_dragBegin_spec (labels : List String) (st : AppState) (x y : Int)
    (hinv : storeInv st.store) :
    ∃ st1, step labels st (GEvent.dragBegin x y) = Except.ok st1 ∧
      storeInv st1.store ∧ dragOk st1.store = true := by
  obtain ⟨hinv1, hne1, _⟩ := create_spec st.store st.label hinv
  obtain ⟨i, t, hI, hget, htgt, hmod, hinv2, htgt2⟩ :=
    modify_target_spec (st.store.create_annotation_if_needed st.label)
      (fun u => { u with box := some (BoxAnn.mk x y x y) }) hinv1 hne1
  refine ⟨AppState.mk (ImageAnn.mk
      ((st.store.create_annotation_if_needed st.label).annotations.set i
        { t with box := some (BoxAnn.mk x y x y) }) (some i)) st.label, ?_, hinv2, ?_⟩
  · simp only [step, hmod]
  · simp only [dragOk, htgt2]
    rfl

theorem step_dragMove_spec (labels : List String) (st : AppState) (x y : Int)
    (hinv : storeInv st.store) (hd : dragOk st.store = true) :
    ∃ st1, step labels st (GEvent.dragMove x y) = Except.ok st1 ∧
      storeInv st1.store ∧ dragOk st1.store = true := by
  have hne := dragOk_nonempty st.store hd
  obtain ⟨i, t, hI, hlt, hget, htgt⟩ := target_of_inv st.store hinv hne
  have hbox : t.box.isSome = true := by simpa [dragOk, htgt] using hd
  obtain ⟨b, hb⟩ := Option.isSome_iff_exists.mp hbox
  obtain ⟨hmod, hinv2, htgt2⟩ := modify_target_eq st.store
    (fun u => { u with box := some (b.update_tail x y) }) i t hI hget hlt
  refine ⟨AppState.mk (ImageAnn.mk
      (st.store.annotations.set i { t with box := some (b.update_tail x y) })
      (some i)) st.label, ?_, hinv2, ?_⟩
  · simp only [step, htgt, hb, hmod]
  · simp only [dragOk, htgt2]
    rfl

theorem step_dragEnd_spec (labels : List String) (st : AppState) (x y : Int)
    (hinv : storeInv st.store) (hd : dragOk st.store = true) :
    ∃ st1, step labels st (GEvent.dragEnd x y) = Except.ok st1 ∧
      storeInv st1.store ∧ dragOk st1.store = true := by
  have hne := dragOk_nonempty st.store hd
  obtain ⟨i, t, hI, hlt, hget, htgt⟩ := target_of_inv st.store hinv hne
  have hbox : t.box.isSome = true := by simpa [dragOk, htgt] using hd
  obtain ⟨b, hb⟩ := Option.isSome_iff_exists.mp hbox
  obtain ⟨hmod, hinv2, htgt2⟩ := modify_target_eq st.store
    (fun u => { u with box := some (b.update_tail x y) }) i t hI hget hlt
  refine ⟨AppState.mk (ImageAnn.mk
      (st.store.annotations.set i { t with box := some (b.update_tail x y) })
      (some i)) st.label, ?_, hinv2, ?_⟩
  · simp only [step, htgt, hb, hmod]
  · simp only [dragOk, htgt2]
    rfl

theorem step_keyZ_spec (labels : List String) (st : AppState)
    (hinv : storeInv st.store) :
    ∃ st1, step labels st GEvent.keyZ = Except.ok st1 ∧ storeInv st1.store := by
  by_cases h : st.store.annotations = []
  · have he : st.store.is_empty = true := by simp [ImageAnn.is_empty, h]
    refine ⟨st, ?_, hinv⟩
    simp only [step, he, if_true]
  · have he : st.store.is_empty = false := by simp [ImageAnn.is_empty, h]
    obtain ⟨i, t, hI, hlt, hget, htgt⟩ := target_of_inv st.store hinv h
    by_cases hte : t.is_empty = true
    · obtain ⟨hpop, hinvp⟩ := pop_target_spec st.store i hI hlt
      refine ⟨AppState.mk (ImageAnn.set_target_index
          (ImageAnn.mk (st.store.annotations.eraseIdx i) (some i)) ((i : Int) - 1))
          st.label, ?_, hinvp⟩
      simp only [step, he, htgt, hte, hpop, Bool.not_true, Bool.false_eq_true,
        if_false]
    · have hte2 : t.is_empty = false := by simpa using hte
      by_cases hbt : t.box.isSome = true
      · obtain ⟨hmod, hinv2, _⟩ := modify_target_eq st.store
          (fun u => { u with box := none }) i t hI hget hlt
        refine ⟨AppState.mk (ImageAnn.mk
            (st.store.annotations.set i { t with box := none }) (some i))
            st.label, ?_, hinv2⟩
        simp only [step, he, htgt, hte2, hbt, hmod, Bool.not_false, if_true,
          Bool.false_eq_true, if_false]
      · have hbt2 : t.box.isSome = false := by simpa using hbt
        obtain ⟨hmod, hinv2, _⟩ := modify_target_eq st.store
          (fun u => { u with points := u.points.dropLast }) i t hI hget hlt
        refine ⟨AppState.mk (ImageAnn.mk
            (st.store.annotations.set i { t with points := t.points.dropLast })
            (some i)) st.label, ?_, hinv2⟩
        simp only [step, he, htgt, hte2, hbt2, hmod, Bool.not_false, if_true,
          Bool.false_eq_true, if_false]

theorem step_keyA_spec (labels : List String) (st : AppState) :
    ∃ st1, step labels st GEvent.keyA = Except.ok st1 ∧ storeInv st1.store := by
  cases hl : st.store.annotations.getLast? with
  | none =>
    refine ⟨AppState.mk (st.store.set_target_index
        ((st.store.annotations.length : Int) - 1)) st.label, ?_,
        set_target_index_inv _ _⟩
    simp only [step, hl]
  | some lastA =>
    by_cases hle : lastA.is_empty = true
    · refine ⟨AppState.mk (st.store.set_target_index
          ((st.store.annotations.length : Int) - 1)) st.label, ?_,
          set_target_index_inv _ _⟩
      simp only [step, hl, hle, Bool.not_true, Bool.false_eq_true, if_false]
    · have hle2 : lastA.is_empty = false := by simpa using hle
      refine ⟨AppState.mk (st.store.append (PlantAnn.mk st.label none []))
          st.label, ?_, (append_spec _ _).2.2⟩
      simp only [step, hl, hle2, Bool.not_false, if_true]

theorem step_keyW_spec (labels : List String) (st : AppState) :
    step labels st GEvent.keyW = Except.error StepErr.noneArith ∨
    ∃ st1, step labels st GEvent.keyW = Except.ok st1 ∧ storeInv st1.store := by
  cases hI : st.store.target_index with
  | none =>
    left
    simp only [step, hI]
  | some i =>
    right
    refine ⟨AppState.mk (st.store.set_target_index ((i : Int) - 1)) st.label, ?_,
        set_target_index_inv _ _⟩
    simp only [step, hI]

theorem step_keyX_spec (labels : List String) (st : AppState) :
    step labels st GEvent.keyX = Except.error StepErr.noneArith ∨
    ∃ st1, step labels st GEvent.keyX = Except.ok st1 ∧ storeInv st1.store := by
  cases hI : st.store.target_index with
  | none =>
    left
    simp only [step, hI]
  | some i =>
    right
    refine ⟨AppState.mk (st.store.set_target_index ((i : Int) + 1)) st.label, ?_,
        set_target_index_inv _ _⟩
    simp only [step, hI]

theorem step_keyDigit_spec (labels : List String) (st : AppState) (n : Fin 9)
    (hinv : storeInv st.store) :
    ∃ st1, step labels st (GEvent.keyDigit n) = Except.ok st1 ∧
      storeInv st1.store ∧
      (dragOk st.store = true → dragOk st1.store = true) := by
  by_cases hle : n.val + 1 ≤ labels.length
  · have hlt : n.val < labels.length := by omega
    have hsome := List.get?_eq_get hlt
    by_cases he : st.store.annotations = []
    · have hemp : st.store.is_empty = true := by simp [ImageAnn.is_empty, he]
      refine ⟨AppState.mk st.store (labels.get ⟨n.val, hlt⟩), ?_, hinv, fun hd => hd⟩
      simp only [step, hle, if_true, hsome, hemp]
    · have hemp : st.store.is_empty = false := by simp [ImageAnn.is_empty, he]
      obtain ⟨i, t, hI, hlt2, hget, htgt⟩ := target_of_inv st.store hinv he
      obtain ⟨hmod, hinv2, htgt2⟩ := modify_target_eq st.store
        (fun u => { u with label := labels.get ⟨n.val, hlt⟩ }) i t hI hget hlt2
      refine ⟨AppState.mk (ImageAnn.mk
          (st.store.annotations.set i { t with label := labels.get ⟨n.val, hlt⟩ })
          (some i)) (labels.get ⟨n.val, hlt⟩), ?_, hinv2, ?_⟩
      · simp only [step, hle, if_true, hsome, hemp, Bool.false_eq_true, if_false,
          hmod]
      · intro hd
        have hbox : t.box.isSome = true := by simpa [dragOk, htgt] using hd
        simp only [dragOk, htgt2]
        simpa using hbox
  · refine ⟨st, ?_, hinv, fun hd => hd⟩
    simp only [step, hle, if_false]


theorem replay_safe (labels : List String) :
    ∀ (es : List GEvent) (d : Bool) (st : AppState),
      storeInv st.store → (d = true → dragOk st.store = true) →
      wfEvents d es = true →
      replay labels st es ≠ Except.error StepErr.targetAccess := by
  intro es
  induction es with
  | nil =>
    intro d st _ _ _
    simp [replay]
  | cons e es ih =>
    intro d st hinv hdrag hwf
    cases e with
    | dblClick x y =>
      simp only [wfEvents] at hwf
      obtain ⟨st1, hstep, hinv1, hdragp⟩ := step_dblClick_spec labels st x y hinv
      simp only [replay, hstep]
      exact ih d st1 hinv1 (fun hd => hdragp (hdrag hd)) hwf
    | dragBegin x y =>
      simp only [wfEvents] at hwf
      obtain ⟨st1, hstep, hinv1, hdrag1⟩ := step_dragBegin_spec labels st x y hinv
      simp only [replay, hstep]
      exact ih true st1 hinv1 (fun _ => hdrag1) hwf
    | dragMove x y =>
      simp only [wfEvents, Bool.and_eq_true] at hwf
      obtain ⟨hd, hwf1⟩ := hwf
      obtain ⟨st1, hstep, hinv1, hdrag1⟩ :=
        step_dragMove_spec labels st x y hinv (hdrag hd)
      simp only [replay, hstep]
      exact ih true st1 hinv1 (fun _ => hdrag1) hwf1
    | dragEnd x y =>
      simp only [wfEvents, Bool.and_eq_true] at hwf
      obtain ⟨hd, hwf1⟩ := hwf
      obtain ⟨st1, hstep, hinv1, _⟩ :=
        step_dragEnd_spec labels st x y hinv (hdrag hd)
      simp only [replay, hstep]
      exact ih false st1 hinv1 (fun hfalse => (Bool.false_ne_true hfalse).elim) hwf1
    | keyZ =>
      simp only [wfEvents] at hwf
      obtain ⟨st1, hstep, hinv1⟩ := step_keyZ_spec labels st hinv
      simp only [replay, hstep]
      exact ih false st1 hinv1 (fun hfalse => (Bool.false_ne_true hfalse).elim) hwf
    | keyA =>
      simp only [wfEvents] at hwf
      obtain ⟨st1, hstep, hinv1⟩ := step_keyA_spec labels st
      simp only [replay, hstep]
      exact ih false st1 hinv1 (fun hfalse => (Bool.false_ne_true hfalse).elim) hwf
    | keyW =>
      simp only [wfEvents] at hwf
      rcases step_keyW_spec labels st with herr | ⟨st1, hstep, hinv1⟩
      · simp [replay, herr]
      · simp only [replay, hstep]
        exact ih false st1 hinv1 (fun hfalse => (Bool.false_ne_true hfalse).elim) hwf
    | keyX =>
      simp only [wfEvents] at hwf
      rcases step_keyX_spec labels st with herr | ⟨st1, hstep, hinv1⟩
      · simp [replay, herr]
      · simp only [replay, hstep]
        exact ih false st1 hinv1 (fun hfalse => (Bool.false_ne_true hfalse).elim) hwf
    | keyDigit n =>
      simp only [wfEvents] at hwf
      obtain ⟨st1, hstep, hinv1, hdragp⟩ := step_keyDigit_spec labels st n hinv
      simp only [replay, hstep]
      exact ih d st1 hinv1 (fun hd => hdragp (hdrag hd)) hwf

theorem mk_init_annotations (l : List PlantAnn) :
    (ImageAnn.mk_init l).annotations = l := by
  unfold ImageAnn.mk_init
  split
  · rename_i h
    rw [List.isEmpty_iff] at h
    rw [h]
  · rfl

theorem mk_init_inv (l : List PlantAnn) : storeInv (ImageAnn.mk_init l) := by
  unfold ImageAnn.mk_init
  split
  · simp [storeInv]
  · rename_i h
    have hlen : l.length ≠ 0 := by
      intro h0
      exact h (by simp [List.length_eq_zero.mp h0])
    simp only [storeInv]
    omega

theorem plant_round_trip (a : PlantAnn) :
    plantEquiv (PlantAnn.from_json (PlantAnn.json_repr a)) a := by
  refine ⟨rfl, ?_, ?_⟩
  · cases hb : a.box with
    | none =>
      simp [PlantAnn.from_json, PlantAnn.json_repr, hb, BoxAnn.from_json, boxCorners]
    | some b =>
      have hx : min b.x b.x2 ≤ max b.x b.x2 := min_le_max
      have hy : min b.y b.y2 ≤ max b.y b.y2 := min_le_max
      simp only [PlantAnn.from_json, PlantAnn.json_repr, hb, Option.map_some',
        BoxAnn.from_json, BoxAnn.json_repr, boxCorners, BoxAnn.x_min, BoxAnn.y_min,
        BoxAnn.x_max, BoxAnn.y_max]
      rw [min_eq_left hx, min_eq_left hy, max_eq_right hx, max_eq_right hy]
  · show (a.points.map PointAnn.json_repr).map PointAnn.from_json = a.points
    rw [List.map_map]
    have hcomp : (PointAnn.from_json ∘ PointAnn.json_repr) = id := by
      funext p
      rfl
    rw [hcomp, List.map_id]

theorem forall2_equiv_map (l : List PlantAnn) :
    List.Forall₂ plantEquiv
      (l.map (fun a => PlantAnn.from_json (PlantAnn.json_repr a))) l := by
  induction l with
  | nil => exact List.Forall₂.nil
  | cons a l ih => exact List.Forall₂.cons (plant_round_trip a) ih

theorem appendAll_of_ne (coords : List (Int × Int)) :
    ∀ a : PlantAnn, a.points ≠ [] →
      (appendAll a coords).points =
        a.points ++ coords.map (fun c => PointAnn.mk "leaf" c.1 c.2) := by
  induction coords with
  | nil =>
    intro a _
    simp [appendAll]
  | cons c cs ih =>
    intro a h
    have hne : a.points.isEmpty = false := by
      cases hp : a.points with
      | nil => exact absurd hp h
      | cons p ps => rfl
    have h1 : (a.append_point c.1 c.2).points =
        a.points ++ [PointAnn.mk "leaf" c.1 c.2] := by
      simp [PlantAnn.append_point, hne]
    have h2 : (a.append_point c.1 c.2).points ≠ [] := by
      simp [h1]
    calc (appendAll a (c :: cs)).points
        = (appendAll (a.append_point c.1 c.2) cs).points := rfl
      _ = (a.append_point c.1 c.2).points
            ++ cs.map (fun d => PointAnn.mk "leaf" d.1 d.2) := ih _ h2
      _ = a.points ++ (c :: cs).map (fun d => PointAnn.mk "leaf" d.1 d.2) := by
            rw [h1]
            simp

/-- C1: for every store and image path, `save_json` signals "delete the file,
write nothing" (`none`) exactly when the store is empty or the store's first
entry is empty; otherwise it produces a record whose `crops` list is the JSON
of every non-empty entry of the store, in order, with empty entries filtered
out. -/
theorem save_json_spec (s : ImageAnn) (image_name image_path : String) :
    (s.save_json image_name image_path = none ↔
      s.annotations = [] ∨
      ∃ a tl, s.annotations = a :: tl ∧ a.is_empty = true) ∧
    (∀ r, s.save_json image_name image_path = some r →
      r.image_name = image_name ∧ r.image_path = image_path ∧
      r.crops =
        (s.annotations.filter (fun c => !c.is_empty)).map PlantAnn.json_repr) := by
  constructor
  · constructor
    · intro hnone
      cases hl : s.annotations with
      | nil => exact Or.inl rfl
      | cons a tl =>
        by_cases ha : a.is_empty = true
        · exact Or.inr ⟨a, tl, rfl, ha⟩
        · exfalso
          unfold ImageAnn.save_json at hnone
          simp only [hl] at hnone
          rw [if_neg ha] at hnone
          exact Option.some_ne_none _ hnone
    · intro h
      rcases h with hnil | ⟨a, tl, hl, ha⟩
      · unfold ImageAnn.save_json
        simp only [hnil]
      · unfold ImageAnn.save_json
        simp only [hl]
        rw [if_pos ha]
  · intro r hr
    cases hl : s.annotations with
    | nil =>
      unfold ImageAnn.save_json at hr
      simp only [hl] at hr
      exact Option.noConfusion hr
    | cons a tl =>
      by_cases ha : a.is_empty = true
      · unfold ImageAnn.save_json at hr
        simp only [hl] at hr
        rw [if_pos ha] at hr
        exact Option.noConfusion hr
      · unfold ImageAnn.save_json at hr
        simp only [hl] at hr
        rw [if_neg ha] at hr
        have hrr := Option.some.inj hr
        rw [← hrr]
        exact ⟨rfl, rfl, rfl⟩

/-- C1 (witness): a store whose first entry is empty yields the deletion
signal even though its second entry is not empty. -/
theorem save_json_spec_witness :
    (ImageAnn.mk [plantEmptyBean, plantStem11] (some 1)).save_json "a.jpg"
      "img/a.jpg" = none :=
  (save_json_spec (ImageAnn.mk [plantEmptyBean, plantStem11] (some 1)) "a.jpg"
    "img/a.jpg").1.mpr (Or.inr ⟨plantEmptyBean, [plantStem11], rfl, rfl⟩)

/-- C2 (counterexample): the claim fails on the code as stated: from the
initial empty store, a shift-drag start, an undo keypress (which removes the
freshly started box), and a further drag move reach the `None`-box update
branch of `on_mouse_event`, so the failing branches are reachable. -/
theorem on_mouse_event_unsafe_counterexample :
    replay ["unknown"] (AppState.mk (ImageAnn.mk_init []) "unknown")
      [GEvent.dragBegin 0 0, GEvent.keyZ, GEvent.dragMove 1 1] =
      Except.error StepErr.targetAccess := rfl

/-- C2 (amended): for every gesture sequence in which each drag-move and
drag-end happens during a drag — after a drag-begin with no intervening undo,
commit or retarget key — no point or box mutation is executed without a
target and no box tail is updated on a target without a box: replaying from
the initial state never raises the target-access / `None`-box failures. -/
theorem controller_safety (labels : List String) (l : String)
    (es : List GEvent) (hwf : wfEvents false es = true) :
    replay labels (AppState.mk (ImageAnn.mk_init []) l) es ≠
      Except.error StepErr.targetAccess :=
  replay_safe labels es false (AppState.mk (ImageAnn.mk_init []) l) rfl
    (fun h => (Bool.false_ne_true h).elim) hwf

/-- C2 (witness): a complete well-formed session — drag with moves, a
double-click and an undo — replays without hitting a failing branch. -/
theorem controller_safety_witness :
    replay ["unknown"] (AppState.mk (ImageAnn.mk_init []) "unknown")
      [GEvent.dragBegin 2 3, GEvent.dragMove 4 5, GEvent.dragEnd 6 7,
        GEvent.dblClick 8 9, GEvent.keyZ, GEvent.dragBegin 1 1,
        GEvent.dragMove 0 0] ≠ Except.error StepErr.targetAccess :=
  controller_safety ["unknown"] "unknown" _ (by decide)

/-- C3: on an empty store the undo key is a no-op as claimed, but the
retarget keys 'w' and 'x' evaluate `None - 1` / `None + 1` through the
`target_index` property and raise a TypeError: the code contradicts the
documented "no-op, never fatal" behavior. -/
theorem empty_store_undo_retarget (labels : List String) (l : String) :
    step labels (AppState.mk (ImageAnn.mk [] none) l) GEvent.keyZ =
      Except.ok (AppState.mk (ImageAnn.mk [] none) l) ∧
    step labels (AppState.mk (ImageAnn.mk [] none) l) GEvent.keyW =
      Except.error StepErr.noneArith ∧
    step labels (AppState.mk (ImageAnn.mk [] none) l) GEvent.keyX =
      Except.error StepErr.noneArith :=
  ⟨rfl, rfl, rfl⟩

/-- C4 (counterexample): the claim fails on the code as stated: in a store
whose target (index 0) is non-empty but whose last entry is empty, the commit
key appends nothing even though the current target is non-empty — the code
tests the last entry, not the target. -/
theorem commit_counterexample :
    storeTargetFirst.target = some plantStem11 ∧
    plantStem11.is_empty = false ∧
    step ["bean"] (AppState.mk storeTargetFirst "bean") GEvent.keyA =
      Except.ok (AppState.mk
        (ImageAnn.mk [plantStem11, plantEmptyBean] (some 1)) "bean") ∧
    (ImageAnn.mk [plantStem11, plantEmptyBean] (some 1)).annotations =
      storeTargetFirst.annotations :=
  ⟨rfl, rfl, rfl, rfl⟩

/-- C4 (amended): the commit key appends a new empty annotation with the
active label and retargets to it exactly when the store is non-empty and its
last entry is non-empty; otherwise it appends nothing and only retargets to
the last slot (`target_index = len - 1`, which the setter turns into `None`
on an empty store). -/
theorem commit_spec (labels : List String) (st : AppState) :
    (∀ lastA, st.store.annotations.getLast? = some lastA →
      lastA.is_empty = false →
      step labels st GEvent.keyA =
        Except.ok (AppState.mk
          (st.store.append (PlantAnn.mk st.label none [])) st.label) ∧
      (st.store.append (PlantAnn.mk st.label none [])).annotations =
        st.store.annotations ++ [PlantAnn.mk st.label none []] ∧
      (st.store.append (PlantAnn.mk st.label none [])).target_index =
        some st.store.annotations.length) ∧
    (∀ lastA, st.store.annotations.getLast? = some lastA →
      lastA.is_empty = true →
      step labels st GEvent.keyA =
        Except.ok (AppState.mk (st.store.set_target_index
          ((st.store.annotations.length : Int) - 1)) st.label) ∧
      (st.store.set_target_index
        ((st.store.annotations.length : Int) - 1)).annotations =
        st.store.annotations ∧
      (st.store.set_target_index
        ((st.store.annotations.length : Int) - 1)).target_index =
        some (st.store.annotations.length - 1)) ∧
    (st.store.annotations.getLast? = none →
      step labels st GEvent.keyA =
        Except.ok (AppState.mk (st.store.set_target_index
          ((st.store.annotations.length : Int) - 1)) st.label) ∧
      (st.store.set_target_index
        ((st.store.annotations.length : Int) - 1)).annotations =
        st.store.annotations ∧
      (st.store.set_target_index
        ((st.store.annotations.length : Int) - 1)).target_index = none) := by
  refine ⟨?_, ?_, ?_⟩
  · intro lastA hlast hfalse
    refine ⟨?_, (append_spec _ _).1, (append_spec _ _).2.1⟩
    simp only [step, hlast, hfalse, Bool.not_false, if_true]
  · intro lastA hlast htrue
    have hne : st.store.annotations ≠ [] := by
      intro h0
      rw [h0] at hlast
      exact Option.noConfusion hlast
    have hlen : st.store.annotations.length ≠ 0 := by
      intro h0
      exact hne (List.length_eq_zero.mp h0)
    refine ⟨?_, set_target_index_annotations _ _, set_target_index_last _ hlen⟩
    simp only [step, hlast, htrue, Bool.not_true, Bool.false_eq_true, if_false]
  · intro hnone
    have hnil : st.store.annotations = [] := List.getLast?_eq_none_iff.mp hnone
    have hlen0 : st.store.annotations.length = 0 := by
      rw [hnil]
      rfl
    refine ⟨?_, set_target_index_annotations _ _, set_target_index_zero _ _ hlen0⟩
    simp only [step, hnone]

/-- C4 (witness): on a store whose single (and last) entry is non-empty, the
commit key appends a fresh empty annotation. -/
theorem commit_spec_witness :
    step ["bean"] (AppState.mk (ImageAnn.mk [plantStem11] (some 0)) "bean")
      GEvent.keyA =
      Except.ok (AppState.mk ((ImageAnn.mk [plantStem11] (some 0)).append
        (PlantAnn.mk "bean" none [])) "bean") :=
  ((commit_spec ["bean"]
    (AppState.mk (ImageAnn.mk [plantStem11] (some 0)) "bean")).1
    plantStem11 rfl rfl).1

/-- C5: one undo step on a non-empty store is the three-tier structural
collapse: a target with a box loses only the box (points untouched); a
box-less target with points loses exactly the most recently appended point;
an empty target is removed from the sequence and the new `target_index` is
the previous index modulo the new length, `None` when the store becomes
empty. -/
theorem undo_three_tier (labels : List String) (st : AppState) (i : Nat)
    (t : PlantAnn) (hI : st.store.target_index = some i)
    (hget : st.store.annotations.get? i = some t)
    (hlt : i < st.store.annotations.length) :
    (∀ b, t.box = some b →
      step labels st GEvent.keyZ = Except.ok (AppState.mk
        (ImageAnn.mk (st.store.annotations.set i { t with box := none })
          (some i)) st.label)) ∧
    (t.box = none → t.points ≠ [] →
      step labels st GEvent.keyZ = Except.ok (AppState.mk
        (ImageAnn.mk (st.store.annotations.set i
          { t with points := t.points.dropLast }) (some i)) st.label) ∧
      ∃ p, t.points = t.points.dropLast ++ [p]) ∧
    (t.box = none → t.points = [] →
      step labels st GEvent.keyZ = Except.ok (AppState.mk
        (ImageAnn.set_target_index
          (ImageAnn.mk (st.store.annotations.eraseIdx i) (some i))
          ((i : Int) - 1)) st.label) ∧
      (st.store.annotations.eraseIdx i).length =
        st.store.annotations.length - 1 ∧
      (st.store.annotations.length - 1 ≠ 0 →
        (ImageAnn.set_target_index
          (ImageAnn.mk (st.store.annotations.eraseIdx i) (some i))
          ((i : Int) - 1)).target_index =
          some ((((i : Int) - 1) %
            (((st.store.annotations.length : Int)) - 1)).toNat)) ∧
      (st.store.annotations.length - 1 = 0 →
        (ImageAnn.set_target_index
          (ImageAnn.mk (st.store.annotations.eraseIdx i) (some i))
          ((i : Int) - 1)).target_index = none)) := by
  have hne : st.store.annotations ≠ [] := by
    intro h0
    rw [h0] at hlt
    exact Nat.not_lt_zero i hlt
  have he : st.store.is_empty = false := by
    simp [ImageAnn.is_empty, hne]
  have hget2 : st.store.annotations[i]? = some t := by
    rw [← List.get?_eq_getElem?]
    exact hget
  have htgt : st.store.target = some t := by
    simp [ImageAnn.target, hI, hget2]
  have herase : (st.store.annotations.eraseIdx i).length =
      st.store.annotations.length - 1 := by
    rw [List.length_eraseIdx]
    simp [hlt]
  refine ⟨?_, ?_, ?_⟩
  · intro b hb
    have hte2 : t.is_empty = false := by
      simp [PlantAnn.is_empty, hb]
    have hbt : t.box.isSome = true := by simp [hb]
    obtain ⟨hmod, _, _⟩ := modify_target_eq st.store
      (fun u => { u with box := none }) i t hI hget hlt
    simp only [step, he, htgt, hte2, hbt, hmod, Bool.not_false, if_true,
      Bool.false_eq_true, if_false]
  · intro hb hp
    have hte2 : t.is_empty = false := by
      simp [PlantAnn.is_empty, hb, hp]
    have hbt2 : t.box.isSome = false := by simp [hb]
    obtain ⟨hmod, _, _⟩ := modify_target_eq st.store
      (fun u => { u with points := u.points.dropLast }) i t hI hget hlt
    constructor
    · simp only [step, he, htgt, hte2, hbt2, hmod, Bool.not_false, if_true,
        Bool.false_eq_true, if_false]
    · exact ⟨t.points.getLast hp, (List.dropLast_append_getLast hp).symm⟩
  · intro hb hp
    have hte : t.is_empty = true := by
      simp [PlantAnn.is_empty, hb, hp]
    obtain ⟨hpop, _⟩ := pop_target_spec st.store i hI hlt
    refine ⟨?_, herase, ?_, ?_⟩
    · simp only [step, he, htgt, hte, hpop, Bool.not_true, Bool.false_eq_true,
        if_false]
    · intro hlen1
      have hlen2 : (ImageAnn.mk (st.store.annotations.eraseIdx i)
          (some i)).annotations.length ≠ 0 := by
        simpa [herase] using hlen1
      rw [set_target_index_val _ _ hlen2]
      have hcast : ((ImageAnn.mk (st.store.annotations.eraseIdx i)
          (some i)).annotations.length : Int) =
          (st.store.annotations.length : Int) - 1 := by
        show ((st.store.annotations.eraseIdx i).length : Int) = _
        rw [herase]
        omega
      rw [hcast]
    · intro hlen1
      have hlen2 : (ImageAnn.mk (st.store.annotations.eraseIdx i)
          (some i)).annotations.length = 0 := by
        simpa [herase] using hlen1
      exact set_target_index_zero _ _ hlen2

/-- C5 (witness): undoing on a store whose target carries a box removes only
the box. -/
theorem undo_three_tier_witness :
    step ["bean"] (AppState.mk (ImageAnn.mk
      [PlantAnn.mk "bean" (some (BoxAnn.mk 1 2 3 4)) []] (some 0)) "bean")
      GEvent.keyZ =
      Except.ok (AppState.mk (ImageAnn.mk
        [PlantAnn.mk "bean" none []] (some 0)) "bean") :=
  (undo_three_tier ["bean"] (AppState.mk (ImageAnn.mk
      [PlantAnn.mk "bean" (some (BoxAnn.mk 1 2 3 4)) []] (some 0)) "bean")
    0 (PlantAnn.mk "bean" (some (BoxAnn.mk 1 2 3 4)) []) rfl rfl
    (by decide)).1 (BoxAnn.mk 1 2 3 4) rfl

theorem map_leaf_kind (cs : List (Int × Int)) :
    (cs.map (fun d => PointAnn.mk "leaf" d.1 d.2)).map PointAnn.kind =
      List.replicate cs.length "leaf" := by
  induction cs with
  | nil => rfl
  | cons c cs ih => simp [List.replicate_succ, ih]

theorem map_leaf_xy (cs : List (Int × Int)) :
    (cs.map (fun d => PointAnn.mk "leaf" d.1 d.2)).map (fun p => (p.x, p.y))
      = cs := by
  induction cs with
  | nil => rfl
  | cons c cs ih => simp [ih]

theorem countP_leaf_stem (cs : List (Int × Int)) :
    (cs.map (fun d => PointAnn.mk "leaf" d.1 d.2)).countP
      (fun p => p.kind == "stem") = 0 := by
  induction cs with
  | nil => rfl
  | cons c cs ih => simp [List.countP_cons, ih]

/-- C6: for every store all of whose entries are non-empty, decoding the
saved record reproduces an equivalent store — same labels, same normalized
box corners (or absent box), identical point kinds, positions and order —
and the decoder takes each point kind from the file rather than re-deriving
it. -/
theorem round_trip (s : ImageAnn) (image_name image_path : String)
    (hne : s.annotations ≠ [])
    (hall : ∀ a ∈ s.annotations, a.is_empty = false) :
    ∃ r, s.save_json image_name image_path = some r ∧
      List.Forall₂ plantEquiv (ImageAnn.from_json r).annotations s.annotations ∧
      ∀ pj : PointJson, (PointAnn.from_json pj).kind = pj.kind := by
  have hfilter : s.annotations.filter (fun c => !c.is_empty) = s.annotations :=
    List.filter_eq_self.mpr (fun c hc => by simp [hall c hc])
  refine ⟨RecordJson.mk image_name image_path
    (s.annotations.map PlantAnn.json_repr), ?_, ?_, fun pj => rfl⟩
  · obtain ⟨a, tl, hl⟩ := List.exists_cons_of_ne_nil hne
    have ha : a.is_empty = false :=
      hall a (by rw [hl]; exact List.mem_cons_self a tl)
    unfold ImageAnn.save_json
    simp only [hl]
    rw [if_neg (by simp [ha])]
    have hfilter2 : (a :: tl).filter (fun c => !c.is_empty) = a :: tl := by
      rw [← hl]
      exact hfilter
    rw [hfilter2]
  · have hdec : (ImageAnn.from_json (RecordJson.mk image_name image_path
        (s.annotations.map PlantAnn.json_repr))).annotations =
        s.annotations.map (fun a => PlantAnn.from_json (PlantAnn.json_repr a)) := by
      show (ImageAnn.mk_init ((s.annotations.map PlantAnn.json_repr).map
        PlantAnn.from_json)).annotations = _
      rw [mk_init_annotations, List.map_map]
      rfl
    rw [hdec]
    exact forall2_equiv_map s.annotations

/-- C6 (witness): the round trip on a concrete one-entry store. -/
theorem round_trip_witness :
    ∃ r, (ImageAnn.mk [plantStem11] (some 0)).save_json "a.jpg" "img/a.jpg" =
      some r ∧
      List.Forall₂ plantEquiv (ImageAnn.from_json r).annotations
        (ImageAnn.mk [plantStem11] (some 0)).annotations ∧
      ∀ pj : PointJson, (PointAnn.from_json pj).kind = pj.kind :=
  round_trip (ImageAnn.mk [plantStem11] (some 0)) "a.jpg" "img/a.jpg"
    (by decide) (by decide)

/-- C7: appending one or more points to an annotation with an empty point
sequence gives the first point kind "stem" and every later point kind
"leaf", regardless of coordinates; exactly one stem ever exists and it is
the first point appended, and the coordinates are kept in order. -/
theorem append_point_kinds (a : PlantAnn) (coords : List (Int × Int))
    (h0 : a.points = []) (hne : coords ≠ []) :
    (appendAll a coords).points.map PointAnn.kind =
      "stem" :: List.replicate (coords.length - 1) "leaf" ∧
    (appendAll a coords).points.map (fun p => (p.x, p.y)) = coords ∧
    (appendAll a coords).points.countP (fun p => p.kind == "stem") = 1 := by
  cases coords with
  | nil => exact absurd rfl hne
  | cons c cs =>
    have h1 : (a.append_point c.1 c.2).points = [PointAnn.mk "stem" c.1 c.2] := by
      simp [PlantAnn.append_point, h0]
    have h2 : (a.append_point c.1 c.2).points ≠ [] := by
      simp [h1]
    have hpts : (appendAll a (c :: cs)).points =
        PointAnn.mk "stem" c.1 c.2 ::
          cs.map (fun d => PointAnn.mk "leaf" d.1 d.2) := by
      calc (appendAll a (c :: cs)).points
          = (appendAll (a.append_point c.1 c.2) cs).points := rfl
        _ = (a.append_point c.1 c.2).points
              ++ cs.map (fun d => PointAnn.mk "leaf" d.1 d.2) :=
            appendAll_of_ne cs _ h2
        _ = _ := by rw [h1]; rfl
    refine ⟨?_, ?_, ?_⟩
    · rw [hpts]
      simp only [List.map_cons, map_leaf_kind, List.length_cons,
        Nat.add_sub_cancel]
    · rw [hpts]
      simp only [List.map_cons, map_leaf_xy]
    · rw [hpts]
      simp [List.countP_cons, countP_leaf_stem]

/-- C7 (witness): two points appended to a fresh annotation come out as one
stem followed by one leaf. -/
theorem append_point_kinds_witness :
    (appendAll plantEmptyBean [(1, 2), (3, 4)]).points.map PointAnn.kind =
      "stem" :: List.replicate 1 "leaf" :=
  (append_point_kinds plantEmptyBean [(1, 2), (3, 4)] rfl (by decide)).1

/-- C8: every store operation preserves the invariant that `target_index` is
`None` iff the sequence is empty and otherwise a valid index, every
explicitly assigned value being reduced modulo the sequence length
(wraparound). -/
theorem store_ops_inv (s : ImageAnn) (hs : storeInv s) (a : PlantAnn)
    (lab : String) (v : Int) (l : List PlantAnn) (file : Option RecordJson) :
    storeInv (ImageAnn.mk_init l) ∧
    storeInv (s.set_target_index v) ∧
    (s.annotations.length ≠ 0 →
      (s.set_target_index v).target_index =
        some ((v % (s.annotations.length : Int)).toNat)) ∧
    (s.annotations.length = 0 →
      (s.set_target_index v).target_index = none) ∧
    storeInv (s.append a) ∧
    storeInv (s.create_annotation_if_needed lab) ∧
    (∃ s1, s.pop_target = some s1 ∧ storeInv s1) ∧
    storeInv s.reset ∧
    storeInv (s.load_from_json file) := by
  refine ⟨mk_init_inv l, set_target_index_inv s v, set_target_index_val s v,
    set_target_index_zero s v, (append_spec s a).2.2, (create_spec s lab hs).1,
    pop_target_of_inv s hs, rfl, ?_⟩
  cases file with
  | none => exact rfl
  | some r => exact set_target_index_inv _ _

/-- C8 (witness): the invariant after an append on a concrete valid store. -/
theorem store_ops_inv_witness :
    storeInv ((ImageAnn.mk [plantStem11] (some 0)).append plantEmptyBean) :=
  (store_ops_inv (ImageAnn.mk [plantStem11] (some 0)) Nat.zero_lt_one
    plantEmptyBean "bean" 5 [] none).2.2.2.2.1

/-- C9: every box stored from a drag `(x, y) → (x2, y2)` satisfies
`x_min ≤ x_max`, `y_min ≤ y_max`, non-negative width and height, and the
normalized corner view is symmetric in the two endpoints: all four drag
directions between the same two corners normalize identically. -/
theorem box_normalized (x y x2 y2 : Int) :
    (BoxAnn.mk x y x y).update_tail x2 y2 = BoxAnn.mk x y x2 y2 ∧
    (BoxAnn.mk x y x2 y2).x_min ≤ (BoxAnn.mk x y x2 y2).x_max ∧
    (BoxAnn.mk x y x2 y2).y_min ≤ (BoxAnn.mk x y x2 y2).y_max ∧
    0 ≤ (BoxAnn.mk x y x2 y2).width ∧
    0 ≤ (BoxAnn.mk x y x2 y2).height ∧
    boxCorners (some (BoxAnn.mk x2 y2 x y)) =
      boxCorners (some (BoxAnn.mk x y x2 y2)) ∧
    boxCorners (some (BoxAnn.mk x y2 x2 y)) =
      boxCorners (some (BoxAnn.mk x y x2 y2)) ∧
    boxCorners (some (BoxAnn.mk x2 y x y2)) =
      boxCorners (some (BoxAnn.mk x y x2 y2)) := by
  refine ⟨rfl, min_le_max, min_le_max, sub_nonneg.mpr min_le_max,
    sub_nonneg.mpr min_le_max, ?_, ?_, ?_⟩
  · simp [boxCorners, BoxAnn.x_min, BoxAnn.y_min, BoxAnn.x_max, BoxAnn.y_max,
      min_comm, max_comm]
  · simp [boxCorners, BoxAnn.x_min, BoxAnn.y_min, BoxAnn.x_max, BoxAnn.y_max,
      min_comm, max_comm]
  · simp [boxCorners, BoxAnn.x_min, BoxAnn.y_min, BoxAnn.x_max, BoxAnn.y_max,
      min_comm, max_comm]

/-- C10: loading an existing file with `n ≥ 1` crops makes the last crop the
target (`target_index = n - 1`); loading an absent file resets the store to
empty with `target_index = None`. -/
theorem load_from_json_spec (s : ImageAnn) (r : RecordJson)
    (hn : 1 ≤ r.crops.length) :
    (s.load_from_json (some r)).annotations = r.crops.map PlantAnn.from_json ∧
    (s.load_from_json (some r)).target_index = some (r.crops.length - 1) ∧
    s.load_from_json none = ImageAnn.mk [] none ∧
    (s.load_from_json none).target_index = none := by
  refine ⟨?_, ?_, rfl, rfl⟩
  · unfold ImageAnn.load_from_json
    exact set_target_index_annotations _ _
  · unfold ImageAnn.load_from_json
    have hlen2 : ({ s with annotations := r.crops.map PlantAnn.from_json } :
        ImageAnn).annotations.length ≠ 0 := by
      simp only [List.length_map]
      omega
    rw [set_target_index_val _ _ hlen2]
    have hcast : (({ s with annotations := r.crops.map PlantAnn.from_json } :
        ImageAnn).annotations.length : Int) = (r.crops.length : Int) := by
      simp
    rw [hcast]
    have h1 : (0 : Int) ≤ (r.crops.length : Int) - 1 := by omega
    have h2 : (r.crops.length : Int) - 1 < (r.crops.length : Int) := by omega
    rw [Int.emod_eq_of_lt h1 h2]
    congr 1
    omega

/-- C10 (witness): loading a one-crop file targets index 0. -/
theorem load_from_json_spec_witness :
    ((ImageAnn.mk [] none).load_from_json (some (RecordJson.mk "a.jpg" "img"
      [CropJson.mk "bean" none [PointJson.mk "stem" 1 1]]))).target_index =
      some 0 :=
  (load_from_json_spec (ImageAnn.mk [] none) (RecordJson.mk "a.jpg" "img"
    [CropJson.mk "bean" none [PointJson.mk "stem" 1 1]]) (by decide)).2.1
